import Mathlib

/-!
Verification of the registry data model (`data/registry_model/interface.py`).

The repository ships the abstract interface `RegistryDataInterface`: method
signatures plus behavioural docstrings.  The implementations are not part of
the source tree, so the operations below are modelled from the spec (and from
the declared signatures), as a shallow state-machine embedding: tag history
rows, blob-upload sessions, blobs, manifests, derived images, labels, and the
GC liveness protocol.
-/

namespace Registry

/-- Modelled from the spec: one row of the append-only tag history.
`lifetime_end = none` encodes an open interval, i.e. an *active* tag.
`target` is the id of the manifest (or legacy image) the tag points at. -/
structure Tag where
  repo : Nat
  name : String
  target : Nat
  lifetime_start : Nat
  lifetime_end : Option Nat
  is_reversion : Bool
  expiration : Option Nat
deriving DecidableEq, Repr

/-- Modelled from the spec: an immutable manifest row (content digest plus the
blob digests it references). -/
structure Manifest where
  id : Nat
  repo : Nat
  digest : String
  blob_refs : List String
deriving DecidableEq, Repr

/-- Modelled from the spec: an immutable content blob with digest, size and an
optional GC expiration. -/
structure Blob where
  repo : Nat
  digest : String
  size : Nat
  expiration : Option Nat
deriving DecidableEq, Repr

/-- Modelled from the spec: the state machine of a blob-upload session,
`OPEN → (append)* → COMMITTED` or `OPEN → (append)* → ABORTED`. -/
inductive UploadStatus where
  | OPEN
  | COMMITTED
  | ABORTED
deriving DecidableEq, Repr

/-- Modelled from the spec: a resumable chunked-upload session
(`BlobUpload`): running byte/chunk counters, opaque hash state and
storage metadata, plus its state-machine status. -/
structure BlobUpload where
  upload_id : Nat
  repo : Nat
  byte_count : Nat
  chunk_count : Nat
  sha_state : Nat
  storage_metadata : Nat
  status : UploadStatus
deriving DecidableEq, Repr

/-- Modelled from the spec: the mutable registry state visible to the
interface operations: tag history rows, manifests, blobs and upload
sessions, plus an id source for freshly created manifests. -/
structure RegistryState where
  tags : List Tag
  manifests : List Manifest
  blobs : List Blob
  uploads : List BlobUpload
  next_manifest_id : Nat
deriving DecidableEq, Repr

/-- The empty registry. -/
def initState : RegistryState :=
  { tags := [], manifests := [], blobs := [], uploads := [], next_manifest_id := 0 }

/-- Typed errors of the interface (spec section 7). -/
inductive RegistryError where
  | NotFound
  | PreconditionFailed
  | InvalidLabelKeyException
  | InvalidMediaTypeException
deriving DecidableEq, Repr

/-- A tag row is the active row for `(repo, name)` iff it matches the key and
its interval is still open. -/
def Tag.isActiveFor (t : Tag) (repo : Nat) (name : String) : Bool :=
  t.repo == repo && t.name == name && t.lifetime_end == none

/-- Modelled from the spec: closing the interval of the active row for
`(repo, name)` sets its `lifetime_end` to `now`; every other row is
untouched. -/
def closeRow (repo : Nat) (name : String) (now : Nat) (t : Tag) : Tag :=
  if t.isActiveFor repo name then { t with lifetime_end := some now } else t

/-- The fresh active row inserted by a retarget. -/
def newTagRow (repo : Nat) (name : String) (target now : Nat) (rev : Bool) : Tag :=
  { repo := repo, name := name, target := target, lifetime_start := now,
    lifetime_end := none, is_reversion := rev, expiration := none }

/-- Row-level retarget: close the current active row (if any) and append the
new active row. -/
def retargetRows (l : List Tag) (repo : Nat) (name : String) (target now : Nat)
    (rev : Bool) : List Tag :=
  l.map (closeRow repo name now) ++ [newTagRow repo name target now rev]

/-- Modelled from the spec: `retarget_tag` atomically closes the current
active tag for the name (sets `lifetime_end = now`) and inserts a new active
row with `lifetime_start = now` pointing at the target; returns the new
tag. -/
def retarget_tag (s : RegistryState) (repo : Nat) (name : String) (target now : Nat)
    (rev : Bool) : RegistryState × Tag :=
  ({ s with tags := retargetRows s.tags repo name target now rev },
   newTagRow repo name target now rev)

/-- Modelled from the spec: `delete_tag` logically ends the active tag's
interval without creating a replacement. -/
def delete_tag (s : RegistryState) (repo : Nat) (name : String) (now : Nat) :
    RegistryState :=
  { s with tags := s.tags.map (closeRow repo name now) }

/-- Modelled from the spec: `get_repo_tag` returns the active tag with the
matching name, or `none` if none. -/
def get_repo_tag (s : RegistryState) (repo : Nat) (name : String) : Option Tag :=
  s.tags.find? (fun t => t.isActiveFor repo name)

/-- All rows of the history of one tag name. -/
def tagHistory (s : RegistryState) (repo : Nat) (name : String) : List Tag :=
  s.tags.filter (fun t => t.repo == repo && t.name == name)

/-- The currently active rows for one tag name. -/
def activeTags (s : RegistryState) (repo : Nat) (name : String) : List Tag :=
  s.tags.filter (fun t => t.isActiveFor repo name)

/-- Whether a blob with the given digest exists under the repository. -/
def blobExists (s : RegistryState) (repo : Nat) (d : String) : Bool :=
  s.blobs.any (fun b => b.repo == repo && b.digest == d)

/-- Modelled from the spec: `create_manifest_and_retarget_tag` creates a
manifest and retargets the tag to it; if any blob referenced by the manifest
does not exist under the repository it fails, returning `(none, none)` with
the state unchanged. -/
def create_manifest_and_retarget_tag (s : RegistryState) (repo : Nat)
    (manifest_digest : String) (blob_refs : List String) (tag_name : String)
    (now : Nat) : RegistryState × Option Manifest × Option Tag :=
  if blob_refs.all (fun d => blobExists s repo d) then
    let m : Manifest :=
      { id := s.next_manifest_id, repo := repo, digest := manifest_digest,
        blob_refs := blob_refs }
    let s1 : RegistryState :=
      { s with manifests := m :: s.manifests,
               next_manifest_id := s.next_manifest_id + 1 }
    let r := retarget_tag s1 repo tag_name m.id now false
    (r.1, some m, some r.2)
  else
    (s, none, none)

/-- Finds the upload session with the given id. -/
def findUpload (s : RegistryState) (uid : Nat) : Option BlobUpload :=
  s.uploads.find? (fun u => u.upload_id == uid)

/-- Replaces the upload session carrying `u.upload_id` by `u`. -/
def setUpload (s : RegistryState) (u : BlobUpload) : RegistryState :=
  { s with uploads :=
      s.uploads.map (fun v => if v.upload_id == u.upload_id then u else v) }

/-- Modelled from the spec: `create_blob_upload` opens a fresh upload session
(state `OPEN`, zero bytes and chunks). -/
def create_blob_upload (s : RegistryState) (uid repo storage_metadata : Nat) :
    RegistryState × BlobUpload :=
  let u : BlobUpload :=
    { upload_id := uid, repo := repo, byte_count := 0, chunk_count := 0,
      sha_state := 0, storage_metadata := storage_metadata,
      status := UploadStatus.OPEN }
  ({ s with uploads := u :: s.uploads }, u)

/-- Modelled from the spec: `update_blob_upload` (chunk append) stores the
caller-supplied counters and hash state.  It fails with `NotFound` if the
session does not exist and with `PreconditionFailed` — leaving the state
unchanged — if the session is not `OPEN`. -/
def update_blob_upload (s : RegistryState) (uid byte_count chunk_count sha_state
    storage_metadata : Nat) : RegistryState × Except RegistryError BlobUpload :=
  match findUpload s uid with
  | none => (s, Except.error RegistryError.NotFound)
  | some u =>
      match u.status with
      | UploadStatus.OPEN =>
          let u2 : BlobUpload :=
            { u with byte_count := byte_count, chunk_count := chunk_count,
                     sha_state := sha_state, storage_metadata := storage_metadata }
          (setUpload s u2, Except.ok u2)
      | _ => (s, Except.error RegistryError.PreconditionFailed)

/-- Modelled from the spec: `commit_blob_upload` materializes a Blob carrying
the supplied digest, the session's accumulated `byte_count` as size and the
given expiration, and moves the session to `COMMITTED`.  The transition is
refused (`PreconditionFailed`, state unchanged) if the session is already
terminal. -/
def commit_blob_upload (s : RegistryState) (uid : Nat) (blob_digest : String)
    (blob_expiration_seconds : Nat) : RegistryState × Except RegistryError Blob :=
  match findUpload s uid with
  | none => (s, Except.error RegistryError.NotFound)
  | some u =>
      match u.status with
      | UploadStatus.OPEN =>
          let b : Blob :=
            { repo := u.repo, digest := blob_digest, size := u.byte_count,
              expiration := some blob_expiration_seconds }
          let s1 := setUpload s { u with status := UploadStatus.COMMITTED }
          ({ s1 with blobs := b :: s1.blobs }, Except.ok b)
      | _ => (s, Except.error RegistryError.PreconditionFailed)

/-- Modelled from the spec: `delete_blob_upload` (abort) moves the session to
the terminal `ABORTED` state. -/
def delete_blob_upload (s : RegistryState) (uid : Nat) : RegistryState :=
  match findUpload s uid with
  | none => s
  | some u => setUpload s { u with status := UploadStatus.ABORTED }

/-- Modelled from the spec: `get_repo_blob_by_digest` returns the (first)
blob record in the repository with the given digest, or `none`. -/
def get_repo_blob_by_digest (s : RegistryState) (repo : Nat) (d : String) :
    Option Blob :=
  s.blobs.find? (fun b => b.repo == repo && b.digest == d)

/-- At most one active tag row per `(repository, name)`. -/
def ActiveUnique (s : RegistryState) : Prop :=
  ∀ repo name, (activeTags s repo name).length ≤ 1

/-- The states reachable from the empty registry through the interface's
mutating operations. -/
inductive Reachable : RegistryState → Prop where
  | init : Reachable initState
  | retarget (s : RegistryState) (repo : Nat) (name : String) (target now : Nat)
      (rev : Bool) : Reachable s → Reachable (retarget_tag s repo name target now rev).1
  | deleteTag (s : RegistryState) (repo : Nat) (name : String) (now : Nat) :
      Reachable s → Reachable (delete_tag s repo name now)
  | createManifestAndRetarget (s : RegistryState) (repo : Nat)
      (manifest_digest : String) (blob_refs : List String) (tag_name : String)
      (now : Nat) : Reachable s →
      Reachable (create_manifest_and_retarget_tag s repo manifest_digest blob_refs
        tag_name now).1
  | createUpload (s : RegistryState) (uid repo storage_metadata : Nat) :
      Reachable s → Reachable (create_blob_upload s uid repo storage_metadata).1
  | updateUpload (s : RegistryState) (uid byte_count chunk_count sha_state
      storage_metadata : Nat) : Reachable s →
      Reachable (update_blob_upload s uid byte_count chunk_count sha_state
        storage_metadata).1
  | commitUpload (s : RegistryState) (uid : Nat) (blob_digest : String)
      (blob_expiration_seconds : Nat) : Reachable s →
      Reachable (commit_blob_upload s uid blob_digest blob_expiration_seconds).1
  | abortUpload (s : RegistryState) (uid : Nat) :
      Reachable s → Reachable (delete_blob_upload s uid)

/-- Modelled from the spec: a derived image row, keyed by source manifest
digest, verb and the canonical hash of the varying metadata. -/
structure DerivedImage where
  source_manifest_digest : String
  verb : String
  varying_metadata_hash : Nat
  storage_location : Nat
deriving DecidableEq, Repr

/-- The derived-image cache: its rows plus an id source for fresh storage
locations. -/
structure DerivedState where
  rows : List DerivedImage
  next_location : Nat
deriving DecidableEq, Repr

/-- The canonical hash used when no varying metadata is supplied. -/
def empty_metadata_hash : Nat := 0

/-- Whether a row carries the given cache key. -/
def derivedKeyMatches (d : DerivedImage) (md verb : String) (mh : Nat) : Bool :=
  d.source_manifest_digest == md && d.verb == verb && d.varying_metadata_hash == mh

/-- Modelled from the spec: `lookup_or_create_derived_image` returns the row
for the key if it exists and otherwise creates exactly one fresh row (with a
fresh storage location) for it. -/
def lookup_or_create_derived_image (s : DerivedState) (md verb : String)
    (mh : Option Nat) : DerivedState × DerivedImage :=
  let h := mh.getD empty_metadata_hash
  match s.rows.find? (fun d => derivedKeyMatches d md verb h) with
  | some d => (s, d)
  | none =>
      let d : DerivedImage :=
        { source_manifest_digest := md, verb := verb, varying_metadata_hash := h,
          storage_location := s.next_location }
      ({ rows := d :: s.rows, next_location := s.next_location + 1 }, d)

/-- Modelled from the spec: a label attached to a manifest. -/
structure Label where
  uuid : Nat
  manifest_digest : String
  key : String
  value : String
  source_type : String
  media_type : String
deriving DecidableEq, Repr

/-- Modelled from the spec: the label key grammar admits alphanumerics, dot,
dash and underscore. -/
def isValidLabelKeyChar (c : Char) : Bool :=
  c.isAlphanum || c == '.' || c == '-' || c == '_'

/-- Modelled from the spec: a label key is valid iff it is non-empty, of
bounded length, and each character is in the key grammar's class. -/
def isValidLabelKey (k : String) : Bool :=
  decide (0 < k.length) && decide (k.length ≤ 255) && k.toList.all isValidLabelKeyChar

/-- Modelled from the spec: the media types the label store recognizes. -/
def allowed_media_types : List String := ["text/plain", "application/json"]

/-- The media type a label is stored with; absent means plain text. -/
def resolveMediaType (mt : Option String) : String := mt.getD "text/plain"

/-- Whether the (optional) media type is recognized. -/
def isValidMediaType (mt : Option String) : Bool :=
  allowed_media_types.contains (resolveMediaType mt)

/-- The label store: its labels plus a uuid source. -/
structure LabelState where
  labels : List Label
  next_uuid : Nat
deriving DecidableEq, Repr

/-- One requested label inside a batch. -/
structure LabelRequest where
  key : String
  value : String
  source_type : String
  media_type : Option String
deriving DecidableEq, Repr

/-- Modelled from the spec: `create_manifest_label` validates the key against
the key grammar and the media type against the recognized set; on a
validation failure nothing is persisted and a typed error is returned. -/
def create_manifest_label (s : LabelState) (manifest_digest key value
    source_type : String) (media_type : Option String) :
    LabelState × Except RegistryError Label :=
  if isValidLabelKey key = false then
    (s, Except.error RegistryError.InvalidLabelKeyException)
  else if isValidMediaType media_type = false then
    (s, Except.error RegistryError.InvalidMediaTypeException)
  else
    let lb : Label :=
      { uuid := s.next_uuid, manifest_digest := manifest_digest, key := key,
        value := value, source_type := source_type,
        media_type := resolveMediaType media_type }
    ({ labels := lb :: s.labels, next_uuid := s.next_uuid + 1 }, Except.ok lb)

/-- Commits a batch of already-validated label requests. -/
def commitLabels (manifest_digest : String) :
    LabelState → List LabelRequest → LabelState × List Label
  | s, [] => (s, [])
  | s, r :: rest =>
      let lb : Label :=
        { uuid := s.next_uuid, manifest_digest := manifest_digest, key := r.key,
          value := r.value, source_type := r.source_type,
          media_type := resolveMediaType r.media_type }
      let rec2 := commitLabels manifest_digest
        { labels := lb :: s.labels, next_uuid := s.next_uuid + 1 } rest
      (rec2.1, lb :: rec2.2)

/-- Modelled from the spec: `batch_create_manifest_labels` buffers the batch
and commits it as one atomic unit; if any single label fails validation the
whole batch is discarded and the state is unchanged. -/
def batch_create_manifest_labels (s : LabelState) (manifest_digest : String)
    (reqs : List LabelRequest) : LabelState × Except RegistryError (List Label) :=
  if reqs.any (fun r => !(isValidLabelKey r.key)) then
    (s, Except.error RegistryError.InvalidLabelKeyException)
  else if reqs.any (fun r => !(isValidMediaType r.media_type)) then
    (s, Except.error RegistryError.InvalidMediaTypeException)
  else
    let done := commitLabels manifest_digest s reqs
    (done.1, Except.ok done.2)

/-- Ordering of history rows: newest `lifetime_start` first. -/
def byStartDesc (a b : Tag) : Prop := b.lifetime_start ≤ a.lifetime_start

instance : DecidableRel byStartDesc := fun a b => Nat.decLe _ _

instance : IsTotal Tag byStartDesc := ⟨fun a b => Nat.le_total b.lifetime_start a.lifetime_start⟩

instance : IsTrans Tag byStartDesc := ⟨fun _ _ _ h1 h2 => Nat.le_trans h2 h1⟩

/-- Modelled from the spec and the declared signature: the history rows of
the repository, restricted to a specific tag name, to active rows and to rows
starting at or after `since_time_ms` when those filters are supplied, ordered
by `lifetime_start` descending, and paginated by the declared `page`/`size`
parameters (1-based page number, rows per page). -/
def list_repository_tag_history (s : RegistryState) (repo : Nat)
    (page size : Nat) (specific_tag_name : Option String)
    (active_tags_only : Bool) (since_time_ms : Option Nat) : List Tag :=
  let keep : Tag → Bool := fun t =>
    t.repo == repo &&
    (match specific_tag_name with
     | some n => t.name == n
     | none => true) &&
    (!active_tags_only || t.lifetime_end == none) &&
    (match since_time_ms with
     | some ms => decide (ms ≤ t.lifetime_start)
     | none => true)
  let sorted := List.insertionSort byStartDesc (s.tags.filter keep)
  (sorted.drop ((page - 1) * size)).take size

/-- Modelled from the spec: a temporary pin guaranteeing liveness of the
content digest it references until it expires. -/
structure Pin where
  content_ref : String
  expires_at : Nat
deriving DecidableEq, Repr

/-- The combined mutation + GC system: registry state, the clock, the
outstanding pins, and the GC mark ("candidate") sets for the double-check
protocol. -/
structure GCState where
  reg : RegistryState
  time : Nat
  pins : List Pin
  blob_candidates : List (String × Nat)
  manifest_candidates : List (String × Nat)
deriving DecidableEq, Repr

/-- Whether a non-expired pin references the digest. -/
def pinnedLive (g : GCState) (ref : String) : Bool :=
  g.pins.any (fun p => p.content_ref == ref && decide (g.time < p.expires_at))

/-- Modelled from the spec: a manifest is live iff some active tag points at
it or a non-expired pin references its digest. -/
def manifest_is_live (g : GCState) (m : Manifest) : Bool :=
  g.reg.tags.any (fun t => (t.lifetime_end == none) && t.target == m.id) ||
    pinnedLive g m.digest

/-- Modelled from the spec: a blob digest is live iff some live manifest
references it or a non-expired pin references it directly; this is the
`is_live` predicate GC consults before any physical deletion. -/
def blob_is_live (g : GCState) (d : String) : Bool :=
  g.reg.manifests.any (fun m => manifest_is_live g m && m.blob_refs.contains d) ||
    pinnedLive g d

/-- Modelled from the spec: one step of the combined mutation + GC system.
Mutations (retarget, tag delete, manifest creation, upload commit, pinning)
may interleave with the clock and with the GC's mark/sweep; GC marks a
candidate only when `is_live` is observed false, and sweeps it only when the
grace period has elapsed since the mark and `is_live` is false again at the
sweep ("double-check" protocol). -/
inductive GCStep (grace : Nat) : GCState → GCState → Prop where
  | tick (g : GCState) : GCStep grace g { g with time := g.time + 1 }
  | retarget (g : GCState) (repo : Nat) (name : String) (target now : Nat)
      (rev : Bool) :
      GCStep grace g { g with reg := (retarget_tag g.reg repo name target now rev).1 }
  | deleteTag (g : GCState) (repo : Nat) (name : String) (now : Nat) :
      GCStep grace g { g with reg := delete_tag g.reg repo name now }
  | createManifestAndRetarget (g : GCState) (repo : Nat) (md : String)
      (blob_refs : List String) (tag_name : String) (now : Nat) :
      GCStep grace g { g with
        reg := (create_manifest_and_retarget_tag g.reg repo md blob_refs tag_name now).1 }
  | commitUpload (g : GCState) (uid : Nat) (d : String) (exp : Nat) :
      GCStep grace g { g with reg := (commit_blob_upload g.reg uid d exp).1 }
  | addPin (g : GCState) (ref : String) (ttl : Nat) :
      GCStep grace g { g with
        pins := { content_ref := ref, expires_at := g.time + ttl } :: g.pins }
  | markBlob (g : GCState) (d : String) : blob_is_live g d = false →
      GCStep grace g { g with blob_candidates := (d, g.time) :: g.blob_candidates }
  | sweepBlob (g : GCState) (d : String) (t0 : Nat) :
      (d, t0) ∈ g.blob_candidates → t0 + grace ≤ g.time →
      blob_is_live g d = false →
      GCStep grace g { g with
        reg := { g.reg with blobs := g.reg.blobs.filter (fun b => !(b.digest == d)) },
        blob_candidates := g.blob_candidates.filter (fun c => !(c.1 == d)) }
  | markManifest (g : GCState) (d : String) :
      (∀ m ∈ g.reg.manifests, m.digest = d → manifest_is_live g m = false) →
      GCStep grace g { g with
        manifest_candidates := (d, g.time) :: g.manifest_candidates }
  | sweepManifest (g : GCState) (d : String) (t0 : Nat) :
      (d, t0) ∈ g.manifest_candidates → t0 + grace ≤ g.time →
      (∀ m ∈ g.reg.manifests, m.digest = d → manifest_is_live g m = false) →
      GCStep grace g { g with
        reg := { g.reg with
          manifests := g.reg.manifests.filter (fun m => !(m.digest == d)) },
        manifest_candidates := g.manifest_candidates.filter (fun c => !(c.1 == d)) }

/-- Fixture: a one-repository state whose single history row for `latest` is
already closed (`lifetime_end = some 3`). -/
def closedRowState : RegistryState :=
  { initState with
      tags := [{ repo := 1, name := "latest", target := 7, lifetime_start := 0,
                 lifetime_end := some 3, is_reversion := false,
                 expiration := none }] }

/-- Fixture: a one-repository state with a single *active* history row for
`latest`, pointing at target `7`. -/
def activeRowState : RegistryState :=
  { initState with tags := [newTagRow 1 "latest" 7 0 false] }

/-- Fixture: the reachable state obtained by a single retarget of `latest`
from the empty registry. -/
def oneRetargetState : RegistryState :=
  (retarget_tag initState 1 "latest" 1 0 false).1

/-- Fixture: an `OPEN` upload session with three chunks totalling 42 bytes. -/
def openUpload : BlobUpload :=
  { upload_id := 10, repo := 1, byte_count := 42, chunk_count := 3,
    sha_state := 7, storage_metadata := 0, status := UploadStatus.OPEN }

/-- Fixture: a state holding only the open upload session. -/
def openUploadState : RegistryState :=
  { initState with uploads := [openUpload] }

/-- Fixture: an upload session that has already been committed. -/
def committedUpload : BlobUpload :=
  { upload_id := 11, repo := 1, byte_count := 42, chunk_count := 3,
    sha_state := 7, storage_metadata := 0, status := UploadStatus.COMMITTED }

/-- Fixture: a state holding only the committed (terminal) upload session. -/
def committedUploadState : RegistryState :=
  { initState with uploads := [committedUpload] }

/-- Fixture: an empty label store. -/
def emptyLabelState : LabelState := { labels := [], next_uuid := 0 }

/-- Fixture: a batch of three label requests whose second label has an
invalid key. -/
def invalidBatch : List LabelRequest :=
  [{ key := "ok-key", value := "1", source_type := "manifest", media_type := none },
   { key := "Invalid Key!", value := "2", source_type := "manifest", media_type := none },
   { key := "also.ok", value := "3", source_type := "manifest", media_type := none }]

/-- Fixture: an empty derived-image cache. -/
def emptyDerivedState : DerivedState := { rows := [], next_location := 0 }

/-- Fixture: a two-row history of `latest` — an old closed interval
(start 10, end 15) and the currently active interval (start 20). -/
def historyState : RegistryState :=
  { initState with
      tags := [{ repo := 1, name := "latest", target := 7, lifetime_start := 10,
                 lifetime_end := some 15, is_reversion := false, expiration := none },
               { repo := 1, name := "latest", target := 8, lifetime_start := 20,
                 lifetime_end := none, is_reversion := false, expiration := none }] }

/-- Fixture: a GC state with one active tag whose manifest references one
stored blob. -/
def gcFixture : GCState :=
  { reg := { initState with
      tags := [newTagRow 1 "latest" 5 0 false],
      manifests := [{ id := 5, repo := 1, digest := "sha256:m",
                      blob_refs := ["sha256:b"] }],
      blobs := [{ repo := 1, digest := "sha256:b", size := 3,
                  expiration := none }] },
    time := 0, pins := [], blob_candidates := [], manifest_candidates := [] }

theorem closeRow_repo (repo : Nat) (name : String) (now : Nat) (t : Tag) :
    (closeRow repo name now t).repo = t.repo := by
  unfold closeRow; split <;> rfl

theorem closeRow_name (repo : Nat) (name : String) (now : Nat) (t : Tag) :
    (closeRow repo name now t).name = t.name := by
  unfold closeRow; split <;> rfl

theorem closeRow_not_active (repo : Nat) (name : String) (now : Nat) (t : Tag) :
    (closeRow repo name now t).isActiveFor repo name = false := by
  unfold closeRow
  split
  · simp [Tag.isActiveFor]
  · rename_i h
    simpa using h

theorem closeRow_cases (repo : Nat) (name : String) (now : Nat) (t : Tag) :
    closeRow repo name now t = t ∨
      closeRow repo name now t = { t with lifetime_end := some now } := by
  unfold closeRow
  split
  · exact Or.inr rfl
  · exact Or.inl rfl

theorem closeRow_of_not_active (repo : Nat) (name : String) (now : Nat) (t : Tag)
    (h : t.isActiveFor repo name = false) : closeRow repo name now t = t := by
  unfold closeRow
  split
  · rename_i h2
    rw [h2] at h
    exact absurd h (by simp)
  · rfl

theorem isActiveFor_iff (t : Tag) (repo : Nat) (name : String) :
    t.isActiveFor repo name = true ↔
      t.repo = repo ∧ t.name = name ∧ t.lifetime_end = none := by
  simp [Tag.isActiveFor, and_assoc]

theorem find?_append_of_none {α : Type} (p : α → Bool) (l1 l2 : List α)
    (h : ∀ x ∈ l1, p x = false) : (l1 ++ l2).find? p = l2.find? p := by
  induction l1 with
  | nil => rfl
  | cons a l ih =>
      have ha : p a = false := h a (List.mem_cons_self a l)
      simp only [List.cons_append, List.find?, ha]
      exact ih (fun x hx => h x (List.mem_cons_of_mem a hx))

theorem find?_of_filter_len_le_one {α : Type} (p : α → Bool) (l : List α)
    (hlen : (l.filter p).length ≤ 1) (t : α) (ht : t ∈ l) (hp : p t = true) :
    l.find? p = some t := by
  induction l with
  | nil => exact absurd ht (List.not_mem_nil t)
  | cons a l ih =>
      by_cases ha : p a = true
      · have hfilter : (a :: l).filter p = a :: l.filter p := by
          simp [List.filter, ha]
        have hempty : l.filter p = [] := by
          rw [hfilter] at hlen
          simp only [List.length_cons] at hlen
          exact List.eq_nil_of_length_eq_zero (by omega)
        have hta : t = a := by
          rcases List.mem_cons.mp ht with h | h
          · exact h
          · exfalso
            have : t ∈ l.filter p := List.mem_filter.mpr ⟨h, hp⟩
            rw [hempty] at this
            exact List.not_mem_nil t this

        simp [List.find?, ha, hta]
      · have hne : t ≠ a := by
          intro he
          rw [he] at hp
          exact ha hp
        have ht2 : t ∈ l := by
          rcases List.mem_cons.mp ht with h | h
          · exact absurd h hne
          · exact h
        have hfilter : (a :: l).filter p = l.filter p := by
          simp [List.filter, ha]
        rw [hfilter] at hlen
        have hfa : p a = false := by
          cases h : p a
          · rfl
          · exact absurd h ha
        simp only [List.find?, hfa]
        exact ih hlen ht2

theorem closeRow_preserves_key (repo : Nat) (name : String) (now : Nat) (t : Tag)
    (r2 : Nat) (n2 : String) :
    ((closeRow repo name now t).repo == r2 && (closeRow repo name now t).name == n2) =
      (t.repo == r2 && t.name == n2) := by
  rw [closeRow_repo, closeRow_name]

theorem length_filter_map_eq {α : Type} (f : α → α) (p : α → Bool)
    (h : ∀ t, p (f t) = p t) (l : List α) :
    ((l.map f).filter p).length = (l.filter p).length := by
  induction l with
  | nil => rfl
  | cons a l ih =>
      simp only [List.map_cons, List.filter_cons, h a]
      cases hpa : p a <;> simp [ih]

/-- C3: retarget_tag is append-only: the history gains exactly one row; every
pre-existing row survives at its index, changed at most by having its
`lifetime_end` closed to `now`; a row that was not the active row for the
retargeted name is completely unchanged. -/
theorem retarget_tag_append_only (s : RegistryState) (repo : Nat) (name : String)
    (target now : Nat) (rev : Bool) :
    ((retarget_tag s repo name target now rev).1.tags.length = s.tags.length + 1) ∧
    (∀ i, ∀ h : i < s.tags.length,
      ∃ h2 : i < (retarget_tag s repo name target now rev).1.tags.length,
        (((retarget_tag s repo name target now rev).1.tags.get ⟨i, h2⟩ =
            s.tags.get ⟨i, h⟩) ∨
         ((retarget_tag s repo name target now rev).1.tags.get ⟨i, h2⟩ =
            { s.tags.get ⟨i, h⟩ with lifetime_end := some now } ∧
          (s.tags.get ⟨i, h⟩).isActiveFor repo name = true)) ∧
        ((s.tags.get ⟨i, h⟩).isActiveFor repo name = false →
          (retarget_tag s repo name target now rev).1.tags.get ⟨i, h2⟩ =
            s.tags.get ⟨i, h⟩)) := by
  constructor
  · simp [retarget_tag, retargetRows]
  · intro i h
    have hlen : (retarget_tag s repo name target now rev).1.tags.length =
        s.tags.length + 1 := by
      simp [retarget_tag, retargetRows]
    have h2 : i < (retarget_tag s repo name target now rev).1.tags.length := by
      omega
    refine ⟨h2, ?_, ?_⟩
    · have hget : (retarget_tag s repo name target now rev).1.tags.get ⟨i, h2⟩ =
          closeRow repo name now (s.tags.get ⟨i, h⟩) := by
        simp only [retarget_tag, retargetRows, List.get_eq_getElem]
        rw [List.getElem_append_left (by simpa using h)]
        simp
      rw [hget]
      unfold closeRow
      split
      · rename_i hact
        exact Or.inr ⟨rfl, hact⟩
      · exact Or.inl rfl
    · intro hnot
      have hget : (retarget_tag s repo name target now rev).1.tags.get ⟨i, h2⟩ =
          closeRow repo name now (s.tags.get ⟨i, h⟩) := by
        simp only [retarget_tag, retargetRows, List.get_eq_getElem]
        rw [List.getElem_append_left (by simpa using h)]
        simp
      rw [hget]
      exact closeRow_of_not_active repo name now _ hnot

/-- C3 witness: on a concrete state whose only history row is already closed,
the retarget leaves that prior row completely unchanged at its index while the
history grows by one. -/
theorem retarget_tag_append_only_witness :
    ((retarget_tag closedRowState 1 "latest" 9 5 false).1.tags.length =
      closedRowState.tags.length + 1) ∧
    ((retarget_tag closedRowState 1 "latest" 9 5 false).1.tags.get ⟨0, by decide⟩ =
      closedRowState.tags.get ⟨0, by decide⟩) := by
  constructor
  · exact (retarget_tag_append_only closedRowState 1 "latest" 9 5 false).1
  · obtain ⟨h2, _, hframe⟩ :=
      (retarget_tag_append_only closedRowState 1 "latest" 9 5 false).2 0 (by decide)
    exact hframe (by decide)

/-- C9: retargeting a tag name to the very target the active tag already
points at is not a no-op: the name's history gains exactly one row, the new
row (with `lifetime_start = now`) becomes the active tag, and the returned
tag is that new row. -/
theorem retarget_tag_same_target_adds_history (s : RegistryState) (repo : Nat)
    (name : String) (target now : Nat) (rev : Bool) (t0 : Tag)
    (h1 : get_repo_tag s repo name = some t0) (h2 : t0.target = target) :
    ((tagHistory (retarget_tag s repo name target now rev).1 repo name).length =
      (tagHistory s repo name).length + 1) ∧
    (get_repo_tag (retarget_tag s repo name target now rev).1 repo name =
      some (retarget_tag s repo name target now rev).2) ∧
    ((retarget_tag s repo name target now rev).2.lifetime_start = now) := by
  refine ⟨?_, ?_, rfl⟩
  · show ((retargetRows s.tags repo name target now rev).filter _).length = _
    unfold retargetRows
    rw [List.filter_append, List.length_append,
      length_filter_map_eq (closeRow repo name now)
        (fun t => t.repo == repo && t.name == name)
        (fun t => closeRow_preserves_key repo name now t repo name)]
    simp [newTagRow, tagHistory]
  · show (retargetRows s.tags repo name target now rev).find? _ = _
    unfold retargetRows
    rw [find?_append_of_none _ _ _ ?_]
    · simp [List.find?, Tag.isActiveFor, newTagRow, retarget_tag]
    · intro x hx
      obtain ⟨t, _, rfl⟩ := List.mem_map.mp hx
      exact closeRow_not_active repo name now t

/-- C9 witness: with a single active `latest` row already pointing at target
`7`, retargeting to `7` again still appends one more history row. -/
theorem retarget_tag_same_target_adds_history_witness :
    ((tagHistory (retarget_tag activeRowState 1 "latest" 7 5 false).1
        1 "latest").length =
      (tagHistory activeRowState 1 "latest").length + 1) ∧
    (get_repo_tag (retarget_tag activeRowState 1 "latest" 7 5 false).1 1 "latest" =
      some (retarget_tag activeRowState 1 "latest" 7 5 false).2) := by
  have h := retarget_tag_same_target_adds_history activeRowState 1 "latest" 7 5
    false (newTagRow 1 "latest" 7 0 false) (by decide) rfl
  exact ⟨h.1, h.2.1⟩

theorem filter_active_retargetRows_self (l : List Tag) (repo : Nat)
    (name : String) (target now : Nat) (rev : Bool) :
    (retargetRows l repo name target now rev).filter
        (fun t => t.isActiveFor repo name) =
      [newTagRow repo name target now rev] := by
  unfold retargetRows
  rw [List.filter_append]
  have h1 : (l.map (closeRow repo name now)).filter
      (fun t => t.isActiveFor repo name) = [] := by
    rw [List.filter_eq_nil_iff]
    intro x hx
    obtain ⟨t, _, rfl⟩ := List.mem_map.mp hx
    simp [closeRow_not_active]
  rw [h1]
  simp [List.filter, Tag.isActiveFor, newTagRow]

theorem newTagRow_not_active_other (repo : Nat) (name : String) (target now : Nat)
    (rev : Bool) (r2 : Nat) (n2 : String) (h : ¬(repo = r2 ∧ name = n2)) :
    (newTagRow repo name target now rev).isActiveFor r2 n2 = false := by
  simp only [newTagRow, Tag.isActiveFor]
  simp only [Bool.and_eq_false_iff]
  by_cases hr : repo = r2
  · have hn : ¬name = n2 := fun hn => h ⟨hr, hn⟩
    left
    right
    simpa using hn
  · left
    left
    simpa using hr

theorem closeRow_active_other (repo : Nat) (name : String) (now : Nat) (a : Tag)
    (r2 : Nat) (n2 : String) (h : ¬(repo = r2 ∧ name = n2)) :
    (closeRow repo name now a).isActiveFor r2 n2 = a.isActiveFor r2 n2 := by
  by_cases hact : a.isActiveFor repo name = true
  · have hcl : closeRow repo name now a = { a with lifetime_end := some now } := by
      unfold closeRow
      simp [hact]
    obtain ⟨hr, hn, he⟩ := (isActiveFor_iff a repo name).mp hact
    rw [hcl]
    simp only [Tag.isActiveFor, he, hr, hn]
    have : ¬(repo = r2 ∧ name = n2) := h
    simp only [Option.some_beq_none]
    by_cases hr2 : repo = r2
    · have hn2 : ¬name = n2 := fun hx => h ⟨hr2, hx⟩
      simp [hn2]
    · simp [hr2]
  · have hfalse : a.isActiveFor repo name = false := by
      cases hx : a.isActiveFor repo name
      · rfl
      · exact absurd hx hact
    rw [closeRow_of_not_active repo name now a hfalse]

theorem closeRow_eq_of_active_other (repo : Nat) (name : String) (now : Nat)
    (a : Tag) (r2 : Nat) (n2 : String) (h : ¬(repo = r2 ∧ name = n2))
    (hpa : a.isActiveFor r2 n2 = true) : closeRow repo name now a = a := by
  obtain ⟨hr, hn, _⟩ := (isActiveFor_iff a r2 n2).mp hpa
  apply closeRow_of_not_active
  cases hx : a.isActiveFor repo name
  · rfl
  · exfalso
    obtain ⟨hr2, hn2, _⟩ := (isActiveFor_iff a repo name).mp hx
    exact h ⟨hr2 ▸ hr, hn2 ▸ hn⟩

theorem filter_active_retargetRows_other (l : List Tag) (repo : Nat)
    (name : String) (target now : Nat) (rev : Bool) (r2 : Nat) (n2 : String)
    (h : ¬(repo = r2 ∧ name = n2)) :
    (retargetRows l repo name target now rev).filter
        (fun t => t.isActiveFor r2 n2) =
      l.filter (fun t => t.isActiveFor r2 n2) := by
  unfold retargetRows
  rw [List.filter_append]
  have h2 : ([newTagRow repo name target now rev]).filter
      (fun t => t.isActiveFor r2 n2) = [] := by
    simp [List.filter, newTagRow_not_active_other repo name target now rev r2 n2 h]
  rw [h2, List.append_nil]
  induction l with
  | nil => rfl
  | cons a l ih =>
      simp only [List.map_cons, List.filter_cons,
        closeRow_active_other repo name now a r2 n2 h]
      cases hpa : a.isActiveFor r2 n2
      · simp [ih]
      · rw [closeRow_eq_of_active_other repo name now a r2 n2 h hpa]
        simp [ih]

theorem retarget_preserves_activeUnique (s : RegistryState) (repo : Nat)
    (name : String) (target now : Nat) (rev : Bool) (hs : ActiveUnique s) :
    ActiveUnique (retarget_tag s repo name target now rev).1 := by
  intro r2 n2
  show (((retargetRows s.tags repo name target now rev).filter
    (fun t => t.isActiveFor r2 n2)).length ≤ 1)
  by_cases h : repo = r2 ∧ name = n2
  · obtain ⟨rfl, rfl⟩ := h
    rw [filter_active_retargetRows_self]
    simp
  · rw [filter_active_retargetRows_other s.tags repo name target now rev r2 n2 h]
    exact hs r2 n2

theorem delete_preserves_activeUnique (s : RegistryState) (repo : Nat)
    (name : String) (now : Nat) (hs : ActiveUnique s) :
    ActiveUnique (delete_tag s repo name now) := by
  intro r2 n2
  show (((s.tags.map (closeRow repo name now)).filter
    (fun t => t.isActiveFor r2 n2)).length ≤ 1)
  by_cases h : repo = r2 ∧ name = n2
  · obtain ⟨rfl, rfl⟩ := h
    have h1 : (s.tags.map (closeRow repo name now)).filter
        (fun t => t.isActiveFor repo name) = [] := by
      rw [List.filter_eq_nil_iff]
      intro x hx
      obtain ⟨t, _, rfl⟩ := List.mem_map.mp hx
      simp [closeRow_not_active]
    rw [h1]
    simp
  · have h1 : (s.tags.map (closeRow repo name now)).filter
        (fun t => t.isActiveFor r2 n2) =
          s.tags.filter (fun t => t.isActiveFor r2 n2) := by
      induction s.tags with
      | nil => rfl
      | cons a l ih =>
          simp only [List.map_cons, List.filter_cons,
            closeRow_active_other repo name now a r2 n2 h]
          cases hpa : a.isActiveFor r2 n2
          · simp [ih]
          · rw [closeRow_eq_of_active_other repo name now a r2 n2 h hpa]
            simp [ih]
    rw [h1]
    exact hs r2 n2

theorem create_manifest_preserves_activeUnique (s : RegistryState) (repo : Nat)
    (manifest_digest : String) (blob_refs : List String) (tag_name : String)
    (now : Nat) (hs : ActiveUnique s) :
    ActiveUnique (create_manifest_and_retarget_tag s repo manifest_digest
      blob_refs tag_name now).1 := by
  unfold create_manifest_and_retarget_tag
  split
  · exact retarget_preserves_activeUnique _ repo tag_name _ now false
      (fun r n => hs r n)
  · exact hs

theorem update_blob_upload_tags (s : RegistryState) (uid a b c d : Nat) :
    (update_blob_upload s uid a b c d).1.tags = s.tags := by
  unfold update_blob_upload
  cases findUpload s uid with
  | none => rfl
  | some u =>
      obtain ⟨u1, u2, u3, u4, u5, u6, st⟩ := u
      cases st <;> rfl

theorem commit_blob_upload_tags (s : RegistryState) (uid : Nat) (d : String)
    (e : Nat) : (commit_blob_upload s uid d e).1.tags = s.tags := by
  unfold commit_blob_upload
  cases findUpload s uid with
  | none => rfl
  | some u =>
      obtain ⟨u1, u2, u3, u4, u5, u6, st⟩ := u
      cases st <;> rfl

theorem delete_blob_upload_tags (s : RegistryState) (uid : Nat) :
    (delete_blob_upload s uid).tags = s.tags := by
  unfold delete_blob_upload
  cases findUpload s uid with
  | none => rfl
  | some u => rfl

theorem reachable_activeUnique (s : RegistryState) (h : Reachable s) :
    ActiveUnique s := by
  induction h with
  | init =>
      intro r n
      simp [activeTags, initState]
  | retarget s repo name target now rev _ ih =>
      exact retarget_preserves_activeUnique s repo name target now rev ih
  | deleteTag s repo name now _ ih =>
      exact delete_preserves_activeUnique s repo name now ih
  | createManifestAndRetarget s repo md refs tn now _ ih =>
      exact create_manifest_preserves_activeUnique s repo md refs tn now ih
  | createUpload s uid repo sm _ ih =>
      exact fun r n => ih r n
  | updateUpload s uid a b c d _ ih =>
      intro r n
      show (((update_blob_upload s uid a b c d).1.tags.filter
        (fun t => t.isActiveFor r n)).length ≤ 1)
      rw [update_blob_upload_tags]
      exact ih r n
  | commitUpload s uid bd be _ ih =>
      intro r n
      show (((commit_blob_upload s uid bd be).1.tags.filter
        (fun t => t.isActiveFor r n)).length ≤ 1)
      rw [commit_blob_upload_tags]
      exact ih r n
  | abortUpload s uid _ ih =>
      intro r n
      show (((delete_blob_upload s uid).tags.filter
        (fun t => t.isActiveFor r n)).length ≤ 1)
      rw [delete_blob_upload_tags]
      exact ih r n

/-- C1: in every reachable state, at most one tag row per
`(repository, name)` is active (`lifetime_end = none`); consequently
`get_repo_tag` returns the unique active row whenever one exists, so readers
never observe two simultaneously active tags for the same name — and every
operation (retarget, tag delete, manifest creation, and the upload
operations) preserves this, by the reachability induction. -/
theorem active_tag_unique (s : RegistryState) (h : Reachable s) (repo : Nat)
    (name : String) :
    (activeTags s repo name).length ≤ 1 ∧
    ∀ t ∈ s.tags, t.isActiveFor repo name = true →
      get_repo_tag s repo name = some t := by
  have hu := reachable_activeUnique s h
  refine ⟨hu repo name, ?_⟩
  intro t ht hact
  exact find?_of_filter_len_le_one _ _ (hu repo name) t ht hact

/-- C1 witness: after one concrete retarget from the empty registry, at most
one `latest` row is active and `get_repo_tag` returns exactly it. -/
theorem active_tag_unique_witness :
    (activeTags oneRetargetState 1 "latest").length ≤ 1 ∧
    get_repo_tag oneRetargetState 1 "latest" =
      some (newTagRow 1 "latest" 1 0 false) := by
  have h := active_tag_unique oneRetargetState
    (Reachable.retarget initState 1 "latest" 1 0 false Reachable.init) 1 "latest"
  exact ⟨h.1, h.2 (newTagRow 1 "latest" 1 0 false) (by decide) (by decide)⟩

/-- C4: committing an `OPEN` upload session with a digest materializes a blob
that a subsequent `get_repo_blob_by_digest` on the same repository returns,
carrying exactly the supplied digest and the session's accumulated
`byte_count` as its size. -/
theorem commit_blob_upload_round_trip (s : RegistryState) (uid : Nat)
    (u : BlobUpload) (d : String) (exp : Nat) (h1 : findUpload s uid = some u)
    (h2 : u.status = UploadStatus.OPEN) :
    ∃ b : Blob, (commit_blob_upload s uid d exp).2 = Except.ok b ∧
      get_repo_blob_by_digest (commit_blob_upload s uid d exp).1 u.repo d =
        some b ∧
      b.digest = d ∧ b.size = u.byte_count := by
  obtain ⟨u1, u2, u3, u4, u5, u6, st⟩ := u
  simp only at h2
  subst h2
  refine ⟨{ repo := u2, digest := d, size := u3, expiration := some exp }, ?_, ?_, rfl, rfl⟩
  · unfold commit_blob_upload
    rw [h1]
  · unfold commit_blob_upload
    rw [h1]
    unfold get_repo_blob_by_digest
    simp [List.find?]

/-- C4 witness: committing the concrete open 42-byte session under digest
`sha256:d` and looking it up returns a blob of size 42 with that digest. -/
theorem commit_blob_upload_round_trip_witness :
    ∃ b : Blob, (commit_blob_upload openUploadState 10 "sha256:d" 60).2 =
        Except.ok b ∧
      get_repo_blob_by_digest (commit_blob_upload openUploadState 10 "sha256:d" 60).1
        openUpload.repo "sha256:d" = some b ∧
      b.digest = "sha256:d" ∧ b.size = openUpload.byte_count := by
  exact commit_blob_upload_round_trip openUploadState 10 openUpload "sha256:d" 60
    (by decide) rfl

/-- C5: a terminal (`COMMITTED` or `ABORTED`) upload session admits no further
transition: both a chunk append (`update_blob_upload`) and a commit
(`commit_blob_upload`) fail with `PreconditionFailed` and return the state
unchanged — no blob is materialized and no counter moves. -/
theorem terminal_upload_rejects (s : RegistryState) (uid : Nat) (u : BlobUpload)
    (h1 : findUpload s uid = some u)
    (h2 : u.status = UploadStatus.COMMITTED ∨ u.status = UploadStatus.ABORTED)
    (bc cc sh sm : Nat) (d : String) (exp : Nat) :
    update_blob_upload s uid bc cc sh sm =
      (s, Except.error RegistryError.PreconditionFailed) ∧
    commit_blob_upload s uid d exp =
      (s, Except.error RegistryError.PreconditionFailed) := by
  obtain ⟨u1, u2, u3, u4, u5, u6, st⟩ := u
  simp only at h2
  constructor
  · unfold update_blob_upload
    rw [h1]
    rcases h2 with h2 | h2 <;> (subst h2; rfl)
  · unfold commit_blob_upload
    rw [h1]
    rcases h2 with h2 | h2 <;> (subst h2; rfl)

/-- C5 witness: on the concrete committed session, both a fourth chunk append
and a second commit are refused with `PreconditionFailed`, leaving the state
untouched. -/
theorem terminal_upload_rejects_witness :
    update_blob_upload committedUploadState 11 50 4 9 0 =
      (committedUploadState, Except.error RegistryError.PreconditionFailed) ∧
    commit_blob_upload committedUploadState 11 "sha256:d" 60 =
      (committedUploadState, Except.error RegistryError.PreconditionFailed) := by
  exact terminal_upload_rejects committedUploadState 11 committedUpload
    (by decide) (Or.inl rfl) 50 4 9 0 "sha256:d" 60

/-- C10: if some blob referenced by the manifest does not exist under the
repository, `create_manifest_and_retarget_tag` returns `(none, none)` and the
state is completely unchanged — no manifest is created and the tag is not
retargeted. -/
theorem create_manifest_missing_blob_error (s : RegistryState) (repo : Nat)
    (md : String) (refs : List String) (tn : String) (now : Nat)
    (h : ∃ d ∈ refs, blobExists s repo d = false) :
    create_manifest_and_retarget_tag s repo md refs tn now = (s, none, none) := by
  have hall : refs.all (fun d => blobExists s repo d) = false := by
    obtain ⟨d, hd, hf⟩ := h
    cases hx : refs.all (fun d => blobExists s repo d)
    · rfl
    · exfalso
      have hmem := List.all_eq_true.mp hx d hd
      rw [hf] at hmem
      exact (by simpa using hmem)
  unfold create_manifest_and_retarget_tag
  simp [hall]

/-- C10 witness: creating a manifest that references the absent blob
`sha256:x` in the empty registry fails with `(none, none)` and leaves the
registry empty. -/
theorem create_manifest_missing_blob_error_witness :
    create_manifest_and_retarget_tag initState 1 "sha256:m" ["sha256:x"]
      "latest" 0 = (initState, none, none) := by
  exact create_manifest_missing_blob_error initState 1 "sha256:m" ["sha256:x"]
    "latest" 0 ⟨"sha256:x", by decide, by decide⟩

/-- C6: the derived-image cache's get-or-create is idempotent: calling it
twice with one key returns the same row both times, the second call creates
nothing (the state is unchanged), at most one row is ever added, and exactly
one row is added when the key was absent. -/
theorem lookup_or_create_derived_image_idempotent (s : DerivedState)
    (md verb : String) (mh : Option Nat) :
    ((lookup_or_create_derived_image
        (lookup_or_create_derived_image s md verb mh).1 md verb mh).2 =
      (lookup_or_create_derived_image s md verb mh).2) ∧
    ((lookup_or_create_derived_image
        (lookup_or_create_derived_image s md verb mh).1 md verb mh).1 =
      (lookup_or_create_derived_image s md verb mh).1) ∧
    ((lookup_or_create_derived_image s md verb mh).1.rows.length ≤
      s.rows.length + 1) ∧
    (s.rows.find? (fun d => derivedKeyMatches d md verb
        (mh.getD empty_metadata_hash)) = none →
      (lookup_or_create_derived_image s md verb mh).1.rows.length =
        s.rows.length + 1) := by
  cases hf : s.rows.find? (fun d => derivedKeyMatches d md verb
      (mh.getD empty_metadata_hash)) with
  | some d =>
      have h1 : lookup_or_create_derived_image s md verb mh = (s, d) := by
        simp [lookup_or_create_derived_image, hf]
      refine ⟨?_, ?_, ?_, ?_⟩
      · rw [h1]
        show (lookup_or_create_derived_image s md verb mh).2 = d
        rw [h1]
      · rw [h1]
        show (lookup_or_create_derived_image s md verb mh).1 = s
        rw [h1]
      · rw [h1]
        exact Nat.le_succ s.rows.length
      · intro hx
        exact absurd hx (by simp)
  | none =>
      have hmatch : derivedKeyMatches
          { source_manifest_digest := md, verb := verb,
            varying_metadata_hash := mh.getD empty_metadata_hash,
            storage_location := s.next_location } md verb
          (mh.getD empty_metadata_hash) = true := by
        simp [derivedKeyMatches]
      have h1 : lookup_or_create_derived_image s md verb mh =
          ({ rows := { source_manifest_digest := md, verb := verb,
                       varying_metadata_hash := mh.getD empty_metadata_hash,
                       storage_location := s.next_location } :: s.rows,
             next_location := s.next_location + 1 },
           { source_manifest_digest := md, verb := verb,
             varying_metadata_hash := mh.getD empty_metadata_hash,
             storage_location := s.next_location }) := by
        simp [lookup_or_create_derived_image, hf]
      have hfind2 : List.find? (fun d => derivedKeyMatches d md verb
          (mh.getD empty_metadata_hash))
          ({ source_manifest_digest := md, verb := verb,
             varying_metadata_hash := mh.getD empty_metadata_hash,
             storage_location := s.next_location } :: s.rows) =
          some { source_manifest_digest := md, verb := verb,
                 varying_metadata_hash := mh.getD empty_metadata_hash,
                 storage_location := s.next_location } := by
        simp [List.find?, hmatch]
      have h2 : lookup_or_create_derived_image
          (lookup_or_create_derived_image s md verb mh).1 md verb mh =
          ((lookup_or_create_derived_image s md verb mh).1,
           { source_manifest_digest := md, verb := verb,
             varying_metadata_hash := mh.getD empty_metadata_hash,
             storage_location := s.next_location }) := by
        rw [h1]
        show lookup_or_create_derived_image
            ({ rows := { source_manifest_digest := md, verb := verb,
                         varying_metadata_hash := mh.getD empty_metadata_hash,
                         storage_location := s.next_location } :: s.rows,
               next_location := s.next_location + 1 } : DerivedState)
            md verb mh = _
        simp [lookup_or_create_derived_image, hfind2]
      refine ⟨?_, ?_, ?_, ?_⟩
      · rw [h2, h1]
      · rw [h2]
      · rw [h1]
        simp
      · intro _
        rw [h1]
        simp

/-- C6 witness: creating the `squash` derived image of `sha256:m` twice in
the empty cache creates exactly one row, and the second call changes
nothing. -/
theorem lookup_or_create_derived_image_idempotent_witness :
    ((lookup_or_create_derived_image
        (lookup_or_create_derived_image emptyDerivedState "sha256:m" "squash"
          none).1 "sha256:m" "squash" none).1 =
      (lookup_or_create_derived_image emptyDerivedState "sha256:m" "squash"
        none).1) ∧
    ((lookup_or_create_derived_image emptyDerivedState "sha256:m" "squash"
        none).1.rows.length = emptyDerivedState.rows.length + 1) := by
  have h := lookup_or_create_derived_image_idempotent emptyDerivedState
    "sha256:m" "squash" none
  exact ⟨h.2.1, h.2.2.2 (by decide)⟩

/-- C8: label creation with a key failing the key grammar fails with the
typed validation error and persists nothing; and a batch containing any
invalid label (bad key or unrecognized media type) is discarded atomically —
the label store is returned unchanged with a typed error. -/
theorem label_validation_atomic :
    (∀ (s : LabelState) (md k v st : String) (mt : Option String),
      isValidLabelKey k = false →
        create_manifest_label s md k v st mt =
          (s, Except.error RegistryError.InvalidLabelKeyException)) ∧
    (∀ (s : LabelState) (md k v st : String) (mt : Option String),
      isValidMediaType mt = false →
        (create_manifest_label s md k v st mt).1 = s ∧
        ∃ e, (create_manifest_label s md k v st mt).2 = Except.error e) ∧
    (∀ (s : LabelState) (md : String) (reqs : List LabelRequest),
      (∃ r ∈ reqs, isValidLabelKey r.key = false ∨
          isValidMediaType r.media_type = false) →
        (batch_create_manifest_labels s md reqs).1 = s ∧
        ∃ e, (batch_create_manifest_labels s md reqs).2 = Except.error e) := by
  refine ⟨?_, ?_, ?_⟩
  · intro s md k v st mt h
    simp [create_manifest_label, h]
  · intro s md k v st mt h
    by_cases hk : isValidLabelKey k = false
    · refine ⟨?_, RegistryError.InvalidLabelKeyException, ?_⟩ <;>
        simp [create_manifest_label, hk]
    · refine ⟨?_, RegistryError.InvalidMediaTypeException, ?_⟩ <;>
        simp [create_manifest_label, hk, h]
  · intro s md reqs h
    by_cases hk : reqs.any (fun r => !(isValidLabelKey r.key)) = true
    · refine ⟨?_, RegistryError.InvalidLabelKeyException, ?_⟩ <;>
        simp [batch_create_manifest_labels, hk]
    · have hm : reqs.any (fun r => !(isValidMediaType r.media_type)) = true := by
        obtain ⟨r, hr, hbad⟩ := h
        rcases hbad with hbad | hbad
        · exact absurd (List.any_eq_true.mpr ⟨r, hr, by simp [hbad]⟩) hk
        · exact List.any_eq_true.mpr ⟨r, hr, by simp [hbad]⟩
      refine ⟨?_, RegistryError.InvalidMediaTypeException, ?_⟩ <;>
        simp [batch_create_manifest_labels, hk, hm]

/-- C8 witness: the key `"Invalid Key!"` fails validation and persists
nothing, an unrecognized media type is rejected without persisting anything,
and the three-label batch whose second key is invalid leaves the label store
unchanged. -/
theorem label_validation_atomic_witness :
    (create_manifest_label emptyLabelState "sha256:m" "Invalid Key!" "v"
        "manifest" none =
      (emptyLabelState, Except.error RegistryError.InvalidLabelKeyException)) ∧
    ((create_manifest_label emptyLabelState "sha256:m" "good-key" "v"
        "manifest" (some "bogus/type")).1 = emptyLabelState) ∧
    ((batch_create_manifest_labels emptyLabelState "sha256:m" invalidBatch).1 =
      emptyLabelState) := by
  refine ⟨?_, ?_, ?_⟩
  · exact label_validation_atomic.1 emptyLabelState "sha256:m" "Invalid Key!"
      "v" "manifest" none (by decide)
  · exact (label_validation_atomic.2.1 emptyLabelState "sha256:m" "good-key"
      "v" "manifest" (some "bogus/type") (by decide)).1
  · exact (label_validation_atomic.2.2 emptyLabelState "sha256:m" invalidBatch
      ⟨{ key := "Invalid Key!", value := "2", source_type := "manifest",
         media_type := none }, by decide, Or.inl (by decide)⟩).1

/-- C7 (amended): the tag history listing is ordered by `lifetime_start`
descending and returns at most `size` rows per page, using the `page`/`size`
row-offset pagination declared in the interface signature. -/
theorem list_repository_tag_history_sorted (s : RegistryState) (repo : Nat)
    (page size : Nat) (sname : Option String) (aonly : Bool)
    (since : Option Nat) :
    List.Sorted byStartDesc
      (list_repository_tag_history s repo page size sname aonly since) ∧
    (list_repository_tag_history s repo page size sname aonly since).length ≤
      size := by
  constructor
  · exact List.Pairwise.sublist
      ((List.take_sublist _ _).trans (List.drop_sublist _ _))
      (List.sorted_insertionSort byStartDesc _)
  · exact List.length_take_le _ _

/-- C7 counterexample: pagination is by row offset (the declared `page` and
`size` parameters), not by a cursor, so a page boundary is not stable under a
concurrent insert: page 2 (size 1) of the `latest` history changes when a
retarget inserts a new row. -/
theorem list_repository_tag_history_page_unstable :
    list_repository_tag_history historyState 1 2 1 none false none ≠
      list_repository_tag_history
        (retarget_tag historyState 1 "latest" 9 30 false).1 1 2 1 none false
        none := by
  decide

theorem create_manifest_blobs (s : RegistryState) (repo : Nat) (md : String)
    (refs : List String) (tn : String) (now : Nat) :
    (create_manifest_and_retarget_tag s repo md refs tn now).1.blobs =
      s.blobs := by
  unfold create_manifest_and_retarget_tag
  split <;> rfl

theorem create_manifest_manifests_mem (s : RegistryState) (repo : Nat)
    (md : String) (refs : List String) (tn : String) (now : Nat) (x : Manifest)
    (hx : x ∈ s.manifests) :
    x ∈ (create_manifest_and_retarget_tag s repo md refs tn now).1.manifests := by
  unfold create_manifest_and_retarget_tag
  split
  · exact List.mem_cons_of_mem _ hx
  · exact hx

theorem commit_blob_upload_manifests (s : RegistryState) (uid : Nat)
    (d : String) (e : Nat) :
    (commit_blob_upload s uid d e).1.manifests = s.manifests := by
  unfold commit_blob_upload
  cases findUpload s uid with
  | none => rfl
  | some u =>
      obtain ⟨u1, u2, u3, u4, u5, u6, st⟩ := u
      cases st <;> rfl

theorem commit_blob_upload_blobs_mem (s : RegistryState) (uid : Nat)
    (d : String) (e : Nat) (x : Blob) (hx : x ∈ s.blobs) :
    x ∈ (commit_blob_upload s uid d e).1.blobs := by
  unfold commit_blob_upload
  cases findUpload s uid with
  | none => exact hx
  | some u =>
      obtain ⟨u1, u2, u3, u4, u5, u6, st⟩ := u
      cases st
      · exact List.mem_cons_of_mem _ hx
      · exact hx
      · exact hx

/-- C2: one step of the combined mutation + GC system never deletes a blob or
manifest that `is_live` observes as reachable from an active tag or a
non-expired pin; and whenever a step does delete content, `is_live` was false
at the deletion and the content had been marked as a GC candidate at least a
full grace period earlier (the mark itself requiring a false `is_live`
observation). -/
theorem gc_never_deletes_live (grace : Nat) (g g2 : GCState)
    (hstep : GCStep grace g g2) :
    (∀ b ∈ g.reg.blobs, blob_is_live g b.digest = true → b ∈ g2.reg.blobs) ∧
    (∀ m ∈ g.reg.manifests, manifest_is_live g m = true →
      m ∈ g2.reg.manifests) ∧
    (∀ b ∈ g.reg.blobs, b ∉ g2.reg.blobs →
      blob_is_live g b.digest = false ∧
      ∃ t0, (b.digest, t0) ∈ g.blob_candidates ∧ t0 + grace ≤ g.time) ∧
    (∀ m ∈ g.reg.manifests, m ∉ g2.reg.manifests →
      manifest_is_live g m = false ∧
      ∃ t0, (m.digest, t0) ∈ g.manifest_candidates ∧ t0 + grace ≤ g.time) := by
  cases hstep with
  | tick =>
      exact ⟨fun b hb _ => hb, fun m hm _ => hm,
        fun b hb hnb => absurd hb hnb, fun m hm hnm => absurd hm hnm⟩
  | retarget repo name target now rev =>
      exact ⟨fun b hb _ => hb, fun m hm _ => hm,
        fun b hb hnb => absurd hb hnb, fun m hm hnm => absurd hm hnm⟩
  | deleteTag repo name now =>
      exact ⟨fun b hb _ => hb, fun m hm _ => hm,
        fun b hb hnb => absurd hb hnb, fun m hm hnm => absurd hm hnm⟩
  | createManifestAndRetarget repo md refs tn now =>
      refine ⟨?_, ?_, ?_, ?_⟩
      · intro b hb _
        show b ∈ (create_manifest_and_retarget_tag g.reg repo md refs tn
          now).1.blobs
        rw [create_manifest_blobs]
        exact hb
      · intro m hm _
        exact create_manifest_manifests_mem g.reg repo md refs tn now m hm
      · intro b hb hnb
        exfalso
        apply hnb
        show b ∈ (create_manifest_and_retarget_tag g.reg repo md refs tn
          now).1.blobs
        rw [create_manifest_blobs]
        exact hb
      · intro m hm hnm
        exact absurd (create_manifest_manifests_mem g.reg repo md refs tn now
          m hm) hnm
  | commitUpload uid d exp =>
      refine ⟨?_, ?_, ?_, ?_⟩
      · intro b hb _
        exact commit_blob_upload_blobs_mem g.reg uid d exp b hb
      · intro m hm _
        show m ∈ (commit_blob_upload g.reg uid d exp).1.manifests
        rw [commit_blob_upload_manifests]
        exact hm
      · intro b hb hnb
        exact absurd (commit_blob_upload_blobs_mem g.reg uid d exp b hb) hnb
      · intro m hm hnm
        exfalso
        apply hnm
        show m ∈ (commit_blob_upload g.reg uid d exp).1.manifests
        rw [commit_blob_upload_manifests]
        exact hm
  | addPin ref ttl =>
      exact ⟨fun b hb _ => hb, fun m hm _ => hm,
        fun b hb hnb => absurd hb hnb, fun m hm hnm => absurd hm hnm⟩
  | markBlob d hl =>
      exact ⟨fun b hb _ => hb, fun m hm _ => hm,
        fun b hb hnb => absurd hb hnb, fun m hm hnm => absurd hm hnm⟩
  | markManifest d hl =>
      exact ⟨fun b hb _ => hb, fun m hm _ => hm,
        fun b hb hnb => absurd hb hnb, fun m hm hnm => absurd hm hnm⟩
  | sweepBlob d t0 hc hg hl =>
      refine ⟨?_, fun m hm _ => hm, ?_, fun m hm hnm => absurd hm hnm⟩
      · intro b hb hlive
        refine List.mem_filter.mpr ⟨hb, ?_⟩
        by_cases hbd : b.digest = d
        · simp [hbd, hl] at hlive
        · simp [hbd]
      · intro b hb hnb
        have hbd : b.digest = d := by
          by_contra hne
          exact hnb (List.mem_filter.mpr ⟨hb, by simp [hne]⟩)
        rw [hbd]
        exact ⟨hl, t0, hc, hg⟩
  | sweepManifest d t0 hc hg hl =>
      refine ⟨fun b hb _ => hb, ?_, fun b hb hnb => absurd hb hnb, ?_⟩
      · intro m hm hlive
        refine List.mem_filter.mpr ⟨hm, ?_⟩
        by_cases hmd : m.digest = d
        · rw [hl m hm hmd] at hlive
          exact absurd hlive (by simp)
        · simp [hmd]
      · intro m hm hnm
        have hmd : m.digest = d := by
          by_contra hne
          exact hnm (List.mem_filter.mpr ⟨hm, by simp [hne]⟩)
        refine ⟨hl m hm hmd, ?_⟩
        rw [hmd]
        exact ⟨t0, hc, hg⟩

/-- C2 witness: across one concrete step of the system, the blob `sha256:b`,
live through the active `latest` tag of the fixture, is not deleted. -/
theorem gc_never_deletes_live_witness :
    ({ repo := 1, digest := "sha256:b", size := 3, expiration := none } :
      Blob) ∈
      ({ gcFixture with time := gcFixture.time + 1 } : GCState).reg.blobs := by
  exact (gc_never_deletes_live 5 gcFixture
      { gcFixture with time := gcFixture.time + 1 } (GCStep.tick gcFixture)).1
    { repo := 1, digest := "sha256:b", size := 3, expiration := none }
    (by decide) (by decide)

end Registry
